import Mathlib

/-!
Verification development for the Human Voice Risk Editor repository
(an Express analyzer in `server/index.js` plus a React client in
`client/src/App.jsx`).

The JavaScript sources are shallowly embedded here.  JS strings are
modelled as `List Char` (`Str`); all concrete inputs appearing in
theorems are ASCII, on which JS UTF-16 code-unit offsets and `List Char`
offsets coincide.  JS numbers are modelled as exact arithmetic: `ℚ` where
the source only forms ratios of integers, `ℝ` where it takes logarithms
or square roots (`Math.log2`, `Math.sqrt`); `Math.round` is Mathlib's
`round : ℝ → ℤ`.  Division by zero is total (`x / 0 = 0`) in the model;
every place the source divides, the divisor is shown or assumed nonzero
on the paths the theorems traverse.

Source functions keep their names where Lean allows it; `end` is a Lean
keyword, so the `end` field/variable of the source is called `stop`
throughout, and identifiers that the development cannot use verbatim are
noted at their definition sites.
-/

/-- JS strings, as lists of (UTF-16 code-unit) characters. -/
abbrev Str := List Char

/-- The apostrophe character (U+0027). -/
def apos : Char := Char.ofNat 39

/-- Whitespace characters recognised by the model of JS `\s` /
`String.prototype.trim`: space, tab, LF, CR, VT, FF.  (The Unicode
space classes of JS are not modelled; all inputs here are ASCII.) -/
def isWs (c : Char) : Bool :=
  c = ' ' ∨ c = Char.ofNat 9 ∨ c = Char.ofNat 10 ∨ c = Char.ofNat 13 ∨
  c = Char.ofNat 11 ∨ c = Char.ofNat 12

/-- Model of `String.prototype.slice(a, b)` for `0 ≤ a`, `0 ≤ b`
(the only way the embedded sources call it): characters from index `a`
up to (exclusive) index `b`, clamped to the string. -/
def jsSlice (t : Str) (a b : Nat) : Str := (t.take b).drop a

/-- Model of `String.prototype.trim()`. -/
def jsTrim (t : Str) : Str :=
  ((t.dropWhile isWs).reverse.dropWhile isWs).reverse

/-- The candidate-position scan behind `indexOf`. -/
def jsIndexOfGo (t p : Str) : Nat → Nat → Option Nat
  | 0, _ => none
  | fuel + 1, i =>
    if p.isPrefixOf (t.drop i) then some i else jsIndexOfGo t p fuel (i + 1)

/-- Model of `String.prototype.indexOf(p)`: the least index at which `p`
occurs as a contiguous substring, `none` when there is no occurrence
(JS returns `-1`).  As in JS, the empty pattern occurs at index 0.
Positions `0 .. t.length` are examined; past the end `t.drop i` is `[]`
and a nonempty `p` cannot match, so `length + 1` positions suffice. -/
def jsIndexOf (t p : Str) : Option Nat := jsIndexOfGo t p (t.length + 1) 0

/-- Model of `String.prototype.split(/\s+/)`: fields separated by
maximal whitespace runs.  As in JS a leading whitespace run yields a
leading empty field; (unlike JS this model drops a trailing empty field,
but the source only ever splits already-trimmed text, where the two
agree). -/
def splitWsRunsGo : Nat → Str → List Str
  | 0, _ => []
  | _, [] => []
  | fuel + 1, c :: rest =>
    ((c :: rest).takeWhile (fun x => !(isWs x))) ::
      splitWsRunsGo fuel (((c :: rest).dropWhile (fun x => !(isWs x))).dropWhile isWs)

/-- Entry point: each step shortens the text by at least one character,
so `length + 1` units of fuel always complete the scan. -/
def splitWsRuns (t : Str) : List Str := splitWsRunsGo (t.length + 1) t

/-- Model of the `/\s{2,}/g → ' '` replacement in the source: each
maximal run of two or more whitespace characters becomes a single
space; single whitespace characters are kept as they are. -/
def collapseWsGo : Nat → Str → Str
  | 0, t => t
  | _, [] => []
  | _ + 1, [c] => [c]
  | fuel + 1, c :: d :: rest =>
    if isWs c ∧ isWs d then ' ' :: collapseWsGo fuel ((d :: rest).dropWhile isWs)
    else c :: collapseWsGo fuel (d :: rest)

/-- Entry point: each step shortens the text, so `length + 1` units of
fuel always complete the scan. -/
def collapseWs (t : Str) : Str := collapseWsGo (t.length + 1) t

/-- Source `capitalizeFirst`: upper-case the first character. -/
def capitalizeFirst : Str → Str
  | [] => []
  | c :: r => c.toUpper :: r

/-- Source `lowerFirst`: lower-case the first character. -/
def lowerFirst : Str → Str
  | [] => []
  | c :: r => c.toLower :: r

/-- Source `clamp(value)` (default bounds 0 and 100):
`Math.max(0, Math.min(100, value))`. -/
noncomputable def jsClamp (x : ℝ) : ℝ := max 0 (min 100 x)

/-- Source `average`: `0` for the empty list, else the mean. -/
noncomputable def average (l : List ℝ) : ℝ :=
  if l = [] then 0 else l.sum / l.length

/-- Source `stdDev`: population standard deviation, `0` for lists of
length ≤ 1 (`Math.sqrt` is `Real.sqrt`). -/
noncomputable def stdDev (l : List ℝ) : ℝ :=
  if l.length ≤ 1 then 0
  else Real.sqrt (((l.map (fun v => (v - average l) ^ 2)).sum) / l.length)

/-- First-occurrence deduplication: the key order of a JS `Map` built by
repeated insertion (used to model `Map` key/value iteration order). -/
def firstDedupGo : Nat → List Str → List Str
  | 0, _ => []
  | _, [] => []
  | fuel + 1, a :: l => a :: firstDedupGo fuel (l.filter (fun x => x ≠ a))

/-- Entry point: each step shortens the list, so `length + 1` units of
fuel always complete the pass. -/
def firstDedup (l : List Str) : List Str := firstDedupGo (l.length + 1) l

/-- Characters counted by JS `\w` (and used by `\b` boundaries):
ASCII letters, digits, underscore. -/
def wordChar (c : Char) : Bool :=
  (('a' ≤ c ∧ c ≤ 'z') ∨ ('A' ≤ c ∧ c ≤ 'Z') ∨ ('0' ≤ c ∧ c ≤ '9') ∨ c = '_')

/-- Lower-case ASCII letter or apostrophe: the characters kept by the
source's token normalisation `replace(/[^a-z']/g, '')`. -/
def keptChar (c : Char) : Bool := ('a' ≤ c ∧ c ≤ 'z') ∨ c = apos

/-- Normalisation applied to each raw token by the source
`tokenizeWords`: lower-case, then strip everything outside `[a-z']`. -/
def normalizeToken (w : Str) : Str :=
  (w.map Char.toLower).filter keptChar

/-- Modelled from the spec: the source's `tokenizeWords` obtains its raw
token stream from the external `compromise` library
(`nlp(text).terms().out('array')`), which is not part of this
repository.  Per the spec's tokenization contract (§4.1/§9), terms are
produced by standard word-boundary segmentation — modelled as splitting
on whitespace runs, which keeps contractions as single tokens — and the
source then lower-cases each term, strips characters outside `[a-z']`,
and drops tokens that become empty. -/
def tokenizeWords (t : Str) : List Str :=
  ((splitWsRuns t).map normalizeToken).filter (fun w => w ≠ [])

/-- Characters ending (or separating) sentence matches in the source
regex `/[^.!?\n]+[.!?]?/g`: the negated class. -/
def isStop (c : Char) : Bool :=
  c = '.' ∨ c = '!' ∨ c = '?' ∨ c = Char.ofNat 10

/-- Terminal punctuation the regex may absorb after a run: `[.!?]`
(newline is excluded). -/
def isPunct (c : Char) : Bool := c = '.' ∨ c = '!' ∨ c = '?'

/-- The successive matches of `/[^.!?\n]+[.!?]?/g` against a suffix of
the document starting at absolute offset `i`: a maximal nonempty run of
non-terminator characters, optionally followed by one of `.!?`.
Positions at which no match can start (terminator characters) are
skipped, exactly as the regex engine advances. -/
def sentenceSpansGo : Nat → Str → Nat → List (Nat × Str)
  | 0, _, _ => []
  | _, [], _ => []
  | fuel + 1, c :: rest, i =>
    if isStop c then sentenceSpansGo fuel rest (i + 1)
    else
      let run := (c :: rest).takeWhile (fun ch => !(isStop ch))
      match (c :: rest).dropWhile (fun ch => !(isStop ch)) with
      | [] => [(i, run)]
      | d :: rem2 =>
        if isPunct d then
          (i, run ++ [d]) :: sentenceSpansGo fuel rem2 (i + run.length + 1)
        else
          (i, run) :: sentenceSpansGo fuel (d :: rem2) (i + run.length)

/-- Entry point: every step of the scan strictly shortens the remaining
text, so `length + 1` units of fuel always complete it. -/
def sentenceSpans (t : Str) (i : Nat) : List (Nat × Str) :=
  sentenceSpansGo (t.length + 1) t i

/-- The sentence record of the source `splitSentences` (the source field
`end` is called `stop` here). -/
structure Sentence where
  index : Nat
  raw : Str
  text : Str
  start : Nat
  stop : Nat
  wordCount : Nat
  opener : Str
  firstWord : Str
deriving DecidableEq, Repr

/-- Builds one sentence record from a regex match, as in the body of the
source `while` loop. -/
def mkSentence (idx : Nat) (a : Nat) (r : Str) : Sentence :=
  let normalized := jsTrim r
  let words := tokenizeWords normalized
  { index := idx
    raw := r
    text := normalized
    start := a
    stop := a + r.length
    wordCount := words.length
    opener := List.intercalate [' '] (words.take 2)
    firstWord := words.headD [] }

/-- The filtering-and-numbering loop of `splitSentences`: matches whose
raw text trims to nothing are dropped (`if (!raw.trim()) continue`),
and `index` counts only the kept sentences. -/
def mkSentences : List (Nat × Str) → Nat → List Sentence
  | [], _ => []
  | (a, r) :: rest, idx =>
    if jsTrim r = [] then mkSentences rest idx
    else mkSentence idx a r :: mkSentences rest (idx + 1)

/-- Source `splitSentences`. -/
def splitSentences (t : Str) : List Sentence :=
  mkSentences (sentenceSpans t 0) 0

/-- The source's fixed stop-word list `COMMON_WORDS`. -/
def COMMON_WORDS : List Str :=
  [("the").toList, ("a").toList, ("an").toList, ("and").toList, ("or").toList,
   ("but").toList, ("if").toList, ("then").toList, ("that").toList, ("this").toList,
   ("it").toList, ("is").toList, ("are").toList, ("was").toList, ("were").toList,
   ("be").toList, ("been").toList, ("being").toList, ("to").toList, ("of").toList,
   ("in").toList, ("on").toList, ("at").toList, ("for").toList, ("with").toList,
   ("by").toList, ("from").toList, ("as").toList, ("about").toList, ("into").toList,
   ("through").toList, ("after").toList, ("before").toList, ("between").toList,
   ("because").toList, ("while").toList, ("over").toList, ("under").toList,
   ("during").toList, ("within").toList, ("without").toList, ("i").toList,
   ("you").toList, ("we").toList, ("they").toList, ("he").toList, ("she").toList,
   ("my").toList, ("your").toList, ("our").toList, ("their").toList, ("its").toList,
   ("there").toList, ("here").toList, ("can").toList, ("could").toList,
   ("would").toList, ("should").toList, ("may").toList, ("might").toList,
   ("do").toList, ("does").toList, ("did").toList, ("have").toList, ("has").toList,
   ("had").toList, ("more").toList, ("most").toList, ("very").toList, ("really").toList]

/-- The source's `PREDICTABLE_PHRASES` catalog, in order (phrase,
replacement).  All phrases are lower-case and contain no regex
metacharacters, so the source's (malformed) metacharacter escaping is a
no-op on this catalog. -/
def PREDICTABLE_PHRASES : List (Str × Str) :=
  [(("in conclusion").toList, ("to wrap up").toList),
   (("it is important to note that").toList, ("worth noting:").toList),
   (("the purpose of this").toList, ("this is meant to").toList),
   (("there are several").toList, ("a few").toList),
   (("this demonstrates that").toList, ("this shows").toList),
   (("in addition").toList, ("plus").toList),
   (("furthermore").toList, ("also").toList),
   (("moreover").toList, ("on top of that").toList),
   (("overall").toList, ("all in all").toList),
   (("it should be noted that").toList, ("note that").toList)]

/-- The alternatives of the source `HEDGE_REGEX`, in order.  No entry is
a prefix of another, so at any text position at most one alternative can
match with its trailing word boundary. -/
def HEDGES : List Str :=
  [("may").toList, ("might").toList, ("could").toList, ("perhaps").toList,
   ("possibly").toList, ("generally").toList, ("typically").toList,
   ("often").toList, ("somewhat").toList, ("largely").toList,
   ("arguably").toList, ("relatively").toList]

/-- Does the lower-cased word `p` match at the head of the remaining
text, with a word boundary after it?  Because every catalog phrase and
every hedge word ends with a letter, the trailing `\b` reduces to: no
word character right after the match (or end of text). -/
def wordHere (p rem : Str) : Bool :=
  decide (p.length ≤ rem.length) &&
  ((rem.take p.length).map Char.toLower == p) &&
  !(wordChar ((rem.drop p.length).headD ' '))

/-- The scan loop of a global sticky regex for one literal phrase
(`\b p \b`, flags `gi`): successive non-overlapping leftmost matches,
resuming after each match (`lastIndex = index + length`).  The scan
walks the suffix `rem` of the document starting at absolute offset `i`;
`prevW` records whether the character before `rem` is a word character
(the leading `\b`; every phrase starts with a letter).  After a match
the character before the new suffix is the phrase's last letter, hence
a word character. -/
def phraseScanGo : Nat → Str → Bool → Str → Nat → List (Nat × Str)
  | 0, _, _, _, _ => []
  | fuel + 1, p, prevW, rem, i =>
    if rem.length < p.length then []
    else if !prevW && wordHere p rem then
      (i, rem.take p.length) :: phraseScanGo fuel p true (rem.drop p.length) (i + p.length)
    else
      match rem with
      | [] => []
      | c :: rest => phraseScanGo fuel p (wordChar c) rest (i + 1)

/-- All whole-word case-insensitive matches of phrase `p` in `t`, with
offsets and the matched (original-case) text.  The scan shortens the
suffix each step, so `length + 1` units of fuel always complete it. -/
def phraseMatches (p t : Str) : List (Nat × Str) :=
  phraseScanGo (t.length + 1) p false t 0

/-- The hedge alternative (if any) matching at the head of the
remaining text: the first alternation branch of `HEDGE_REGEX` that
matches case-insensitively with a word boundary after it. -/
def hedgeWordHere (rem : Str) : Option Str :=
  HEDGES.find? (fun w => wordHere w rem)

/-- The scan loop of the global `HEDGE_REGEX`, walking the suffix as in
`phraseScanGo` (`prevW` is the leading word-boundary state; every hedge
word starts and ends with a letter). -/
def hedgeScanGo : Nat → Bool → Str → Nat → List (Nat × Str)
  | 0, _, _, _ => []
  | fuel + 1, prevW, rem, i =>
    match rem with
    | [] => []
    | c :: rest =>
      if prevW then hedgeScanGo fuel (wordChar c) rest (i + 1)
      else
        match hedgeWordHere (c :: rest) with
        | some w =>
          (i, (c :: rest).take w.length) ::
            hedgeScanGo fuel true ((c :: rest).drop w.length) (i + w.length)
        | none => hedgeScanGo fuel (wordChar c) rest (i + 1)

/-- All matches of the source `HEDGE_REGEX` (`String.prototype.match`
with the `g` flag), with offsets and matched text.  The scan shortens
the suffix each step, so `length + 1` units of fuel always complete
it. -/
def hedgeMatches (t : Str) : List (Nat × Str) :=
  hedgeScanGo (t.length + 1) false t 0

/-- Model of `String.prototype.replace(regex, cb)` given the regex's
match list: the text between matches is kept, each matched substring is
replaced by `cb` applied to it. -/
def replaceGo (t : Str) (cb : Str → Str) : Nat → List (Nat × Str) → Str
  | pos, [] => t.drop pos
  | pos, (i, m) :: rest => jsSlice t pos i ++ cb m ++ replaceGo t cb (i + m.length) rest

/-- The replacer callback of suggestion detector 5.  In the source it is
written `(hedge, offset) => offset === sentence.text.toLowerCase()
.indexOf(hedge.toLowerCase()) ? '' : hedge`, but `HEDGE_REGEX` contains
a capture group, so the callback's second parameter receives the
captured *string* (not the numeric offset); a JS strict equality
between a string and a number is always `false`, and the callback
therefore always returns the match unchanged. -/
def hedgeReplacer (hedge : Str) : Str := hedge

/-- The `replacement` computed by detector 5 for one sentence:
`sentence.text.replace(HEDGE_REGEX, cb).replace(/\s{2,}/g, ' ').trim()`. -/
def hedgeCleaned (s : Str) : Str :=
  jsTrim (collapseWs (replaceGo s hedgeReplacer 0 (hedgeMatches s)))

/-- Suggestion status (`pending` / `accepted` / `rejected`). -/
inductive SuggStatus
  | pending
  | accepted
  | rejected
deriving DecidableEq, Repr

/-- A suggestion as held by the server response and the client state
(the source field `end` is called `stop` here). -/
structure Suggestion where
  id : Str
  type : Str
  title : Str
  description : Str
  start : Nat
  stop : Nat
  original : Str
  replacement : Str
  riskImpact : Nat
  status : SuggStatus
deriving DecidableEq, Repr

/-- A candidate passed to `pushSuggestion` (no `id`/`status` yet). -/
structure Cand where
  type : Str
  title : Str
  description : Str
  start : Nat
  stop : Nat
  original : Str
  replacement : Str
  riskImpact : Nat
deriving DecidableEq, Repr

/-- Source `pushSuggestion`: drop invalid spans (`start < 0` cannot
occur with `Nat` offsets; `end <= start` is the live check), then append
with a sequential id `s-<n>` and `status: 'pending'`. -/
def pushSuggestion (acc : List Suggestion) (c : Cand) : List Suggestion :=
  if c.stop ≤ c.start then acc
  else acc ++ [{
    id := ("s-").toList ++ Nat.toDigits 10 (acc.length + 1)
    type := c.type
    title := c.title
    description := c.description
    start := c.start
    stop := c.stop
    original := c.original
    replacement := c.replacement
    riskImpact := c.riskImpact
    status := SuggStatus.pending }]

def varyTag : Str := ("vary-sentence-length").toList
def swapTag : Str := ("swap-predictable-phrasing").toList
def textureTag : Str := ("add-stylistic-texture").toList
def openersTag : Str := ("diversify-openers").toList
def hedgeTag : Str := ("reduce-hedging-uniformity").toList

/-- Style baseline statistics (`computeStyleProfile` result).  Rates
that the source computes as ratios of integers are kept as exact `ℚ`;
`sentenceVariance` involves `Math.sqrt` and is `ℝ`. -/
structure StyleProfile where
  avgSentenceLength : ℝ
  sentenceVariance : ℝ
  commaRate : ℚ
  questionRate : ℚ

/-- Source `computeStyleProfile`: `null` for empty/blank samples; else
mean and population stddev of nonzero sentence word counts, and
comma/question-mark counts per measurable sentence. -/
noncomputable def computeStyleProfile (text : Str) : Option StyleProfile :=
  if text = [] ∨ jsTrim text = [] then none
  else
    let sentences := splitSentences text
    let sentenceLengths := (sentences.map (fun s => s.wordCount)).filter (fun n => n ≠ 0)
    let commaCount := text.count ','
    let questionCount := text.count '?'
    some {
      avgSentenceLength := average (sentenceLengths.map (fun n => (n : ℝ)))
      sentenceVariance := stdDev (sentenceLengths.map (fun n => (n : ℝ)))
      commaRate :=
        if sentenceLengths.length = 0 then 0
        else (commaCount : ℚ) / (sentenceLengths.length : ℚ)
      questionRate :=
        if sentenceLengths.length = 0 then 0
        else (questionCount : ℚ) / (sentenceLengths.length : ℚ) }

/-- Detector 1 (`vary-sentence-length`): slide a window of three
consecutive sentences; when their word counts have stddev ≤ 2.2 and the
middle sentence has over 20 words and a comma, propose splitting it at
its first comma. -/
noncomputable def varySentenceLength (sentences : List Sentence)
    (acc : List Suggestion) : List Suggestion :=
  (List.range (sentences.length - 2)).foldl (fun acc i =>
    match sentences.drop i with
    | a :: b :: c :: _ =>
      if stdDev [(a.wordCount : ℝ), (b.wordCount : ℝ), (c.wordCount : ℝ)] ≤ 2.2 then
        if 20 < b.wordCount ∧ b.text.contains ',' then
          let splitIdx := b.text.indexOf ','
          let left := jsTrim (b.text.take splitIdx)
          let right := jsTrim (b.text.drop (splitIdx + 1))
          if left ≠ [] ∧ right ≠ [] then
            pushSuggestion acc {
              type := varyTag
              title := ("Vary sentence length in this run").toList
              description := ("These nearby sentences have very similar length. Splitting this one adds natural rhythm.").toList
              start := b.start
              stop := b.stop
              original := b.raw
              replacement := left ++ (". ").toList ++ capitalizeFirst right
              riskImpact := 8 }
          else acc
        else acc
      else acc
    | _ => acc) acc

/-- Is the matched text capitalised (`/^[A-Z]/.test(original)`)? -/
def isUpperFirst : Str → Bool
  | [] => false
  | c :: _ => 'A' ≤ c ∧ c ≤ 'Z'

/-- The per-match loop of detector 2 for one catalog phrase: push each
match, but stop scanning this phrase when the accumulated suggestion
list has reached 40 entries (the `return` in the source exits only the
current phrase's `forEach` callback). -/
def swapGo (pr : Str × Str) : List (Nat × Str) → List Suggestion → List Suggestion
  | [], acc => acc
  | (i, m) :: rest, acc =>
    let next := if isUpperFirst m then capitalizeFirst pr.2 else pr.2
    let acc2 := pushSuggestion acc {
      type := swapTag
      title := ("Use less templated phrasing").toList
      description := ("This phrase is common in generated text. A small wording swap can feel more personal.").toList
      start := i
      stop := i + m.length
      original := m
      replacement := next
      riskImpact := 6 }
    if 40 ≤ acc2.length then acc2 else swapGo pr rest acc2

/-- Detector 2 (`swap-predictable-phrasing`): scan every catalog phrase
over the whole document. -/
def swapPredictablePhrasing (text : Str) (acc : List Suggestion) : List Suggestion :=
  PREDICTABLE_PHRASES.foldl (fun acc pr => swapGo pr (phraseMatches pr.1 text) acc) acc

/-- Does `t` start (case-insensitively) with the word `p`
(`/^p\b/i.test(t)`)?  `p` ends with a letter, so the trailing `\b`
is: no word character at position `p.length`. -/
def startsWithWordCI (t p : Str) : Bool :=
  ((t.take p.length).map Char.toLower == p) && !(wordChar (t.getD p.length ' '))

/-- Detector 3 (`add-stylistic-texture`): when the document has no
texture characters `()?;:` (or the style baseline's comma rate exceeds
0.4), insert the literal token `(for context),` after the 6th word of
the first sentence with ≥ 14 words and no parenthesis.  (For such a
sentence `words.length ≥ 1`, so the source's `words.length - 1` is
never negative.) -/
def addStylisticTexture (text : Str) (sentences : List Sentence)
    (styleProfile : Option StyleProfile) (acc : List Suggestion) : List Suggestion :=
  let hasTexture := text.any (fun c => c = '(' ∨ c = ')' ∨ c = '?' ∨ c = ';' ∨ c = ':')
  let gate := !hasTexture ||
    (match styleProfile with
     | some sp => decide (mkRat 2 5 < sp.commaRate)
     | none => false)
  if gate then
    match sentences.find? (fun s => decide (14 ≤ s.wordCount) && !(s.text.contains '(')) with
    | some tg =>
      let words := splitWsRuns tg.text
      let insertAt := min 6 (words.length - 1)
      let words2 := words.take insertAt ++ [("(for context),").toList] ++ words.drop insertAt
      pushSuggestion acc {
        type := textureTag
        title := ("Add a small human-style aside").toList
        description := ("A brief parenthetical can make polished writing feel more naturally human.").toList
        start := tg.start
        stop := tg.stop
        original := tg.raw
        replacement := List.intercalate [' '] words2
        riskImpact := 5 }
    | none => acc
  else acc

/-- Detector 4 (`diversify-openers`): for every `firstWord` occurring at
least three times (in first-occurrence order, the iteration order of the
source's `Map`), rewrite the 2nd and 3rd sentence with that opener using
a lead-in chosen by pattern-matching the sentence's first word. -/
def diversifyOpeners (sentences : List Sentence) (acc : List Suggestion) : List Suggestion :=
  let keys := firstDedup ((sentences.map (fun s => s.firstWord)).filter (fun w => w ≠ []))
  let repetitiveOpeners := keys.filter
    (fun w => decide (3 ≤ (sentences.filter (fun s => s.firstWord = w)).length))
  repetitiveOpeners.foldl (fun acc w =>
    let repeatedSentences := ((sentences.filter (fun s => s.firstWord = w)).drop 1).take 2
    repeatedSentences.foldl (fun acc s =>
      let replacement :=
        if startsWithWordCI s.text (("this").toList) then
          ("In this case, ").toList ++ lowerFirst s.text
        else if startsWithWordCI s.text (("the").toList) then
          ("From another angle, ").toList ++ lowerFirst s.text
        else if startsWithWordCI s.text (("it").toList) then
          ("At a practical level, ").toList ++ lowerFirst s.text
        else
          ("As written here, ").toList ++ lowerFirst s.text
      pushSuggestion acc {
        type := openersTag
        title := ("Diversify repetitive sentence starts").toList
        description := ("Several sentences start with \"").toList ++ w ++
          ("\". Varying one opener reduces structural repetition.").toList
        start := s.start
        stop := s.stop
        original := s.raw
        replacement := replacement
        riskImpact := 7 }) acc) acc

/-- Detector 5 (`reduce-hedging-uniformity`): fires only when
`hedgeDensity ≥ 0.5`; for each sentence with a hedge match, proposes
`hedgeCleaned` of its text when that is nonempty and different. -/
def reduceHedging (hedgeDensity : ℚ) (sentences : List Sentence)
    (acc : List Suggestion) : List Suggestion :=
  if decide (mkRat 1 2 ≤ hedgeDensity) then
    sentences.foldl (fun acc s =>
      if hedgeMatches s.text = [] then acc
      else
        let replacement := hedgeCleaned s.text
        if replacement ≠ [] ∧ replacement ≠ s.text then
          pushSuggestion acc {
            type := hedgeTag
            title := ("Reduce repetitive hedging").toList
            description := ("Hedging is useful, but too much in every sentence can look algorithmic.").toList
            start := s.start
            stop := s.stop
            original := s.raw
            replacement := replacement
            riskImpact := 6 }
        else acc) acc
  else acc

/-- The final style-profile-guided `vary-sentence-length` block of
`buildSuggestions`: when the document's sentence-length stddev is under
0.75 of the baseline's, split the first sentence longer than `mean + 7`
words at its first comma. -/
noncomputable def styleRhythm (sentences : List Sentence)
    (sentenceLengthMean sentenceLengthStd : ℝ)
    (styleProfile : Option StyleProfile) (acc : List Suggestion) : List Suggestion :=
  match styleProfile with
  | none => acc
  | some sp =>
    if sentenceLengthStd < sp.sentenceVariance * 0.75 then
      match sentences.find? (fun s => decide (sentenceLengthMean + 7 < (s.wordCount : ℝ))) with
      | some ls =>
        if ls.text.contains ',' then
          let splitIdx := ls.text.indexOf ','
          let left := jsTrim (ls.text.take splitIdx)
          let right := jsTrim (ls.text.drop (splitIdx + 1))
          pushSuggestion acc {
            type := varyTag
            title := ("Match your usual rhythm").toList
            description := ("Compared to your style sample, this section is rhythmically uniform. Split one sentence to restore your voice.").toList
            start := ls.start
            stop := ls.stop
            original := ls.raw
            replacement := left ++ (". ").toList ++ capitalizeFirst right
            riskImpact := 8 }
        else acc
      | none => acc
    else acc

/-- Source `buildSuggestions`: the five detectors in order followed by
the style-rhythm block, then `slice(0, 20)`. -/
noncomputable def buildSuggestions (text : Str) (sentences : List Sentence)
    (sentenceLengthMean sentenceLengthStd : ℝ) (hedgeDensity : ℚ)
    (styleProfile : Option StyleProfile) : List Suggestion :=
  let s1 := varySentenceLength sentences []
  let s2 := swapPredictablePhrasing text s1
  let s3 := addStylisticTexture text sentences styleProfile s2
  let s4 := diversifyOpeners sentences s3
  let s5 := reduceHedging hedgeDensity sentences s4
  let s6 := styleRhythm sentences sentenceLengthMean sentenceLengthStd styleProfile s5
  s6.take 20

/-- Three-band classification (`getRiskColor`). -/
inductive RiskBand
  | low
  | moderate
  | high
deriving DecidableEq, Repr

/-- Source `getRiskColor`: `low` below 35, `moderate` below 65, else
`high`, applied to the pre-rounding score. -/
noncomputable def getRiskColor (score : ℝ) : RiskBand :=
  if score < 35 then RiskBand.low
  else if score < 65 then RiskBand.moderate
  else RiskBand.high

/-- The five metrics of the response (`Math.round`ed, hence `ℤ`). -/
structure RiskMetrics where
  perplexity : ℤ
  burstiness : ℤ
  sentencePatternDiversity : ℤ
  vocabularyPredictability : ℤ
  overallRisk : ℤ
deriving DecidableEq, Repr

/-- The five per-metric bands of the response. -/
structure RiskBands where
  perplexity : RiskBand
  burstiness : RiskBand
  sentencePatternDiversity : RiskBand
  vocabularyPredictability : RiskBand
  overallRisk : RiskBand
deriving DecidableEq, Repr

/-- The `insights` payload, reduced to the fields any claim mentions:
word/sentence counts and the advisory note of the insufficient-input
branch.  (The rich branch's display-only rounded statistics —
`avgSentenceLength`, `sentenceLengthStd`, `dominantOpenerRatio`,
`hedgeDensity`, all passed through `Number(x.toFixed(...))` purely for
the UI — are not modelled.) -/
structure Insights where
  wordCount : Nat
  sentenceCount : Nat
  note : Option Str
deriving DecidableEq, Repr

/-- The `/api/analyze` response object. -/
structure AnalysisResult where
  metrics : RiskMetrics
  riskBands : RiskBands
  insights : Insights
  suggestions : List Suggestion
  styleProfile : Option StyleProfile

/-- The document sentence-length sample used by the scorer and passed to
`buildSuggestions`: word counts of the sentences, zeroes dropped
(`.filter(Boolean)`). -/
noncomputable def sentenceLengthsOf (sentences : List Sentence) : List ℝ :=
  ((sentences.map (fun s => s.wordCount)).filter (fun n => n ≠ 0)).map (fun n => (n : ℝ))

/-- Perplexity risk: entropy of the word-frequency distribution relative
to `log2(uniqueWords)`, plus a dominant-word repetition term. The unique
words are taken in first-occurrence order (`Map` iteration order); the
empty-list `Math.max` base value 0 is never reached on scored inputs
(they have ≥ 20 words). -/
noncomputable def perplexityRisk (words : List Str) : ℝ :=
  let uniq := firstDedup words
  let total := (words.length : ℝ)
  let counts := uniq.map (fun w => words.count w)
  let probs := counts.map (fun c => (c : ℝ) / total)
  let entropy := (probs.map (fun p => if 0 < p then -(p * Real.logb 2 p) else 0)).sum
  let maxEntropy := if 1 < uniq.length then Real.logb 2 (uniq.length : ℝ) else 1
  let entropyRat := entropy / maxEntropy
  let maxFrequency := counts.foldr max 0
  let repetitionRat := (maxFrequency : ℝ) / total
  jsClamp ((1 - entropyRat) * 85 + repetitionRat * 45)

/-- Burstiness risk: `clamp(92 − CV·125)`, plus the style-baseline
variance-gap bonus when a profile with positive variance exists. -/
noncomputable def burstinessRisk (sentences : List Sentence)
    (styleProfile : Option StyleProfile) : ℝ :=
  let ls := sentenceLengthsOf sentences
  let m := average ls
  let sd := stdDev ls
  let cv := if m = 0 then 0 else sd / m
  let base := jsClamp (92 - cv * 125)
  match styleProfile with
  | some sp =>
    if 0 < sp.sentenceVariance then jsClamp (base + max 0 (sp.sentenceVariance - sd) * 3.5)
    else base
  | none => base

/-- Sentence-pattern risk from opener diversity and dominance
(`sentence.opener || sentence.firstWord`, empties dropped). -/
noncomputable def sentencePatternRisk (sentences : List Sentence) : ℝ :=
  let openers := (sentences.map (fun s => if s.opener ≠ [] then s.opener else s.firstWord)).filter
    (fun o => o ≠ [])
  let keys := firstDedup openers
  let counts := keys.map (fun o => openers.count o)
  let dominantOpenerRat := ((counts.foldr max 0 : ℕ) : ℝ) / (openers.length : ℝ)
  let openerDiversityRat := (keys.length : ℝ) / (openers.length : ℝ)
  jsClamp ((1 - openerDiversityRat) * 70 + dominantOpenerRat * 55)

/-- Hedge density: `HEDGE_REGEX` match count over
`max(1, sentenceCount)`, an exact rational.  (`mkRat n d` equals
`(n : ℚ) / (d : ℚ)` whenever `d ≠ 0`, and the denominator here is
positive; `mkRat` is used because it evaluates by kernel reduction.) -/
def hedgeDensityOf (t : Str) (sentenceCount : Nat) : ℚ :=
  mkRat ((hedgeMatches t).length : ℤ) (max 1 sentenceCount)

/-- Vocabulary-predictability risk: stop-word ratio and (one minus)
hapax ratio, then the hedge-density bonus, each stage clamped. -/
noncomputable def vocabularyRisk (words : List Str) (hedgeDensity : ℚ) : ℝ :=
  let total := (words.length : ℝ)
  let commonWordCount := (words.filter (fun w => decide (w ∈ COMMON_WORDS))).length
  let commonRat := (commonWordCount : ℝ) / total
  let uniq := firstDedup words
  let hapaxRat := ((uniq.filter (fun w => decide (words.count w = 1))).length : ℝ) / (uniq.length : ℝ)
  let base := jsClamp (commonRat * 120 + (1 - hapaxRat) * 30)
  jsClamp (base + (hedgeDensity : ℝ) * 12)

/-- Weighted overall risk. -/
noncomputable def overallScore (p b s v : ℝ) : ℝ :=
  jsClamp (p * 0.28 + b * 0.24 + s * 0.22 + v * 0.26)

/-- The advisory note of the insufficient-input branch. -/
def insufficientNote : Str :=
  ("Add more text for a stronger signal. Roughly 120+ words gives better stability.").toList

/-- Source `analyzeText`: trim, segment, tokenize, profile; below the
minimum-input floor (blank text, fewer than 20 words or fewer than 2
sentences) return the neutral default; otherwise score and build
suggestions. -/
noncomputable def analyzeText (text : Str) (styleSample : Str) : AnalysisResult :=
  let trimmed := jsTrim text
  let sentences := splitSentences trimmed
  let words := tokenizeWords trimmed
  let styleProfile := computeStyleProfile styleSample
  if trimmed = [] ∨ words.length < 20 ∨ sentences.length < 2 then
    { metrics := ⟨50, 50, 50, 50, 50⟩
      riskBands := ⟨RiskBand.moderate, RiskBand.moderate, RiskBand.moderate,
        RiskBand.moderate, RiskBand.moderate⟩
      insights := ⟨words.length, sentences.length, some insufficientNote⟩
      suggestions := []
      styleProfile := styleProfile }
  else
    let hd := hedgeDensityOf trimmed sentences.length
    let p := perplexityRisk words
    let b := burstinessRisk sentences styleProfile
    let sp := sentencePatternRisk sentences
    let v := vocabularyRisk words hd
    let o := overallScore p b sp v
    { metrics := ⟨round p, round b, round sp, round v, round o⟩
      riskBands := ⟨getRiskColor p, getRiskColor b, getRiskColor sp,
        getRiskColor v, getRiskColor o⟩
      insights := ⟨words.length, sentences.length, none⟩
      suggestions := buildSuggestions trimmed sentences
        (average (sentenceLengthsOf sentences)) (stdDev (sentenceLengthsOf sentences))
        hd styleProfile
      styleProfile := styleProfile }

/-- The client state touched by `applySuggestion` in `App.jsx`:
the document, the suggestion list, and whether the stale-suggestion
error message was set. -/
structure ClientState where
  text : Str
  suggestions : List Suggestion
  staleError : Bool
deriving DecidableEq, Repr

/-- The three-stage location logic at the top of the source
`applySuggestion` (exact recorded span; first occurrence of `original`;
first occurrence of `original.trim()`), returning the located
`(start, end, originalSlice)` or `none` for the stale case. -/
def locateSpan (text : Str) (sugg : Suggestion) : Option (Nat × Nat × Str) :=
  let originalSlice := jsSlice text sugg.start sugg.stop
  if originalSlice = sugg.original then some (sugg.start, sugg.stop, originalSlice)
  else
    match jsIndexOf text sugg.original with
    | some exactIdx => some (exactIdx, exactIdx + sugg.original.length, sugg.original)
    | none =>
      let compact := jsTrim sugg.original
      if compact = [] then none
      else
        match jsIndexOf text compact with
        | some fallbackIdx => some (fallbackIdx, fallbackIdx + compact.length, compact)
        | none => none

/-- Source `applySuggestion` (client).  Guard: unknown id or non-pending
target is a no-op.  Stale location sets the error and leaves text and
suggestions untouched.  On success the located span is spliced, the
target becomes `accepted` with its new span, and every other suggestion
with `start ≥ located end` is shifted by
`delta = replacement.length − originalSlice.length`; the source's
`item.start + delta` is written `item.start + replacement.length −
originalSlice.length` here, which agrees with the JS value because
`item.start ≥ e ≥ originalSlice.length` on that branch (and likewise
for `item.end` when `item.end ≥ item.start`). -/
def applySuggestion (text : Str) (suggestions : List Suggestion)
    (targetId : Str) : ClientState :=
  match suggestions.find? (fun s => s.id == targetId) with
  | none => ⟨text, suggestions, false⟩
  | some sugg =>
    if sugg.status ≠ SuggStatus.pending then ⟨text, suggestions, false⟩
    else
      match locateSpan text sugg with
      | none => ⟨text, suggestions, true⟩
      | some (s, e, originalSlice) =>
        let nextText := jsSlice text 0 s ++ sugg.replacement ++ text.drop e
        let nextSuggestions := suggestions.map (fun item =>
          if item.id = targetId then
            { item with
                status := SuggStatus.accepted
                start := s
                stop := s + sugg.replacement.length }
          else if e ≤ item.start then
            { item with
                start := item.start + sugg.replacement.length - originalSlice.length
                stop := item.stop + sugg.replacement.length - originalSlice.length }
          else item)
        ⟨nextText, nextSuggestions, false⟩

/-! Section: Concrete documents and records used by the claim theorems. -/

/-- The concrete analysis input used for C1: a draft with one leading
space, 26 words, two sentences, one catalog-phrase occurrence
(`Furthermore`), and a `;` so that no other detector fires. -/
def c1doc : Str :=
  (" Furthermore the cat sat on the mat near the door; it was warm. The dog slept by the fire all night long while rain fell outside.").toList

/-- The concrete document for C10: two sentences, no texture characters,
sentence 2 (the only one with ≥ 14 words) is the texture target; its raw
span begins with the space separating it from sentence 1. -/
def c10doc : Str :=
  ("The results show the value of the work done here. The numbers gave everyone on the team a clear view of the final outcome today.").toList

/-- Concrete document and suggestion list for the C2 witness. -/
def c2text : Str := ("abcdefghij").toList

def c2target : Suggestion :=
  { id := ("s-1").toList, type := swapTag, title := [], description := []
    start := 0, stop := 2, original := ("ab").toList
    replacement := ("XYZ").toList, riskImpact := 1, status := SuggStatus.pending }

def c2later : Suggestion :=
  { id := ("s-2").toList, type := varyTag, title := [], description := []
    start := 3, stop := 5, original := ("de").toList
    replacement := ("d").toList, riskImpact := 1, status := SuggStatus.pending }

def c2earlier : Suggestion :=
  { id := ("s-3").toList, type := varyTag, title := [], description := []
    start := 0, stop := 1, original := ("a").toList
    replacement := ("aa").toList, riskImpact := 1, status := SuggStatus.pending }

/-- The relation C5 asserts between a pre-rounding score, the returned
integer metric, and the returned band. -/
def bandMatches (score : ℝ) (m : ℤ) (b : RiskBand) : Prop :=
  m = round score ∧ 0 ≤ m ∧ m ≤ 100 ∧
  (score < 35 → b = RiskBand.low) ∧
  (35 ≤ score → score < 65 → b = RiskBand.moderate) ∧
  (65 ≤ score → b = RiskBand.high)

/-- The concrete analysis input used for the C5 witness: 24 words, two
sentences. -/
def c5doc : Str :=
  ("One two three four five six seven eight nine ten eleven twelve thirteen fourteen fifteen sixteen seventeen eighteen nineteen twenty. Two sentences needed here.").toList

/-- The C6 document. -/
def c6doc : Str := ("It is important to note that this works.").toList

/-- The C7 failing input: two sentences, each containing a hedge word
(`may`, `could`), hedge density 1 ≥ 0.5. -/
def c7doc : Str :=
  ("The results may show the value of this work today. The numbers could help everyone see the value.").toList

/-- The C8 document: forty whole-word occurrences of `overall` followed
by one occurrence of a later catalog phrase. -/
def c8doc : Str :=
  ("overall overall overall overall overall overall overall overall overall overall overall overall overall overall overall overall overall overall overall overall overall overall overall overall overall overall overall overall overall overall overall overall overall overall overall overall overall overall overall overall it should be noted that").toList
/-! Section: Slice arithmetic. -/

lemma jsSlice_cons (c : Char) (t : Str) (a b : Nat) :
    jsSlice (c :: t) (a + 1) (b + 1) = jsSlice t a b := by
  simp [jsSlice]

lemma jsSlice_prefix (u v : Str) : jsSlice (u ++ v) 0 u.length = u := by
  simp [jsSlice, List.take_left]

lemma jsSlice_prefix_succ (u : Str) (d : Char) (v : Str) :
    jsSlice (u ++ d :: v) 0 (u.length + 1) = u ++ [d] := by
  simp [jsSlice]
  rw [List.take_append]
  simp

lemma jsSlice_append (u v : Str) (a b : Nat) :
    jsSlice (u ++ v) (u.length + a) (u.length + b) = jsSlice v a b := by
  simp [jsSlice]
  rw [List.take_append, List.drop_append]

lemma jsSlice_length {t : Str} {a n : Nat} (h : a + n ≤ t.length) :
    (jsSlice t a (a + n)).length = n := by
  simp [jsSlice]
  omega

/-! Section: Segmenter soundness. -/


lemma sentenceSpansGo_sound :
    ∀ (fuel : Nat) (t : Str) (i : Nat) (a : Nat) (r : Str),
      (a, r) ∈ sentenceSpansGo fuel t i →
      ∃ k, a = i + k ∧ r ≠ [] ∧ k + r.length ≤ t.length ∧
        r = jsSlice t k (k + r.length) := by
  intro fuel
  induction fuel with
  | zero => intro t i a r h; simp [sentenceSpansGo] at h
  | succ fuel ih =>
    intro t i a r h
    match t with
    | [] => simp [sentenceSpansGo] at h
    | c :: rest =>
      rw [sentenceSpansGo] at h
      by_cases hstop : isStop c
      · rw [if_pos hstop] at h
        obtain ⟨k, hk, hne, hb, hs⟩ := ih rest (i + 1) a r h
        refine ⟨k + 1, by omega, hne, by simp; omega, ?_⟩
        have harith : k + 1 + r.length = (k + r.length) + 1 := by omega
        rw [harith, jsSlice_cons]
        exact hs
      · rw [if_neg hstop] at h
        simp only at h
        have htd := List.takeWhile_append_dropWhile
          (p := fun ch => !(isStop ch)) (l := c :: rest)
        have hrun : (c :: rest).takeWhile (fun ch => !(isStop ch))
            = c :: rest.takeWhile (fun ch => !(isStop ch)) := by
          simp [List.takeWhile_cons, hstop]
        set run := (c :: rest).takeWhile (fun ch => !(isStop ch)) with hrundef
        have hrunne : run ≠ [] := by rw [hrun]; simp
        split at h
        · -- dropWhile = []
          rename_i heq
          rw [heq] at htd
          simp only [List.append_nil] at htd
          simp at h
          obtain ⟨rfl, rfl⟩ := h
          refine ⟨0, by omega, hrunne, by rw [← htd]; omega, ?_⟩
          conv_rhs => rw [← htd]
          have := jsSlice_prefix run []
          simp at this ⊢
          exact this.symm
        · -- dropWhile = d :: rem2
          rename_i d rem2 heq
          rw [heq] at htd
          by_cases hpunct : isPunct d
          · rw [if_pos hpunct] at h
            rcases List.mem_cons.1 h with hh | hh
            · simp at hh
              obtain ⟨rfl, rfl⟩ := hh
              refine ⟨0, by omega, by simp, ?_, ?_⟩
              · rw [← htd]; simp
              · conv_rhs => rw [← htd]
                have := jsSlice_prefix_succ run d rem2
                simp at this ⊢
                exact this.symm
            · obtain ⟨k, hk, hne, hb, hs⟩ := ih rem2 (i + run.length + 1) a r hh
              refine ⟨run.length + 1 + k, by omega, hne, ?_, ?_⟩
              · rw [← htd]; simp; omega
              · conv_rhs => rw [← htd]
                have heq2 : (run ++ d :: rem2) = (run ++ [d]) ++ rem2 := by simp
                rw [heq2]
                have hlen : run.length + 1 + k = (run ++ [d]).length + k := by simp
                rw [hlen, Nat.add_assoc ((run ++ [d]).length) k r.length,
                  jsSlice_append]
                exact hs
          · rw [if_neg hpunct] at h
            rcases List.mem_cons.1 h with hh | hh
            · simp at hh
              obtain ⟨rfl, rfl⟩ := hh
              refine ⟨0, by omega, hrunne, ?_, ?_⟩
              · rw [← htd]; simp
              · conv_rhs => rw [← htd]
                have := jsSlice_prefix run (d :: rem2)
                simp at this ⊢
                exact this.symm
            · obtain ⟨k, hk, hne, hb, hs⟩ := ih (d :: rem2) (i + run.length) a r hh
              refine ⟨run.length + k, by omega, hne, ?_, ?_⟩
              · rw [← htd]; simp at hb ⊢; omega
              · conv_rhs => rw [← htd]
                have hlen2 : run.length + k + r.length
                    = run.length + (k + r.length) := by omega
                rw [hlen2, jsSlice_append]
                exact hs

lemma mkSentences_mem :
    ∀ (spans : List (Nat × Str)) (idx : Nat) (s : Sentence),
      s ∈ mkSentences spans idx →
      ∃ a r, (a, r) ∈ spans ∧ s.raw = r ∧ s.text = jsTrim r ∧
        s.start = a ∧ s.stop = a + r.length := by
  intro spans
  induction spans with
  | nil => intro idx s h; simp [mkSentences] at h
  | cons p rest ih =>
    intro idx s h
    obtain ⟨a, r⟩ := p
    rw [mkSentences] at h
    by_cases hblank : jsTrim r = []
    · rw [if_pos hblank] at h
      obtain ⟨a2, r2, hmem, h1, h2, h3, h4⟩ := ih idx s h
      exact ⟨a2, r2, List.mem_cons_of_mem _ hmem, h1, h2, h3, h4⟩
    · rw [if_neg hblank] at h
      rcases List.mem_cons.1 h with hh | hh
      · subst hh
        exact ⟨a, r, List.mem_cons_self _ _, rfl, rfl, rfl, rfl⟩
      · obtain ⟨a2, r2, hmem, h1, h2, h3, h4⟩ := ih (idx + 1) s hh
        exact ⟨a2, r2, List.mem_cons_of_mem _ hmem, h1, h2, h3, h4⟩

/-- Every sentence record is a faithful window into the segmenter's
input: nonempty raw text, in-bounds span, and `raw` is the span's
slice. -/
lemma splitSentences_sound (t : Str) :
    ∀ s ∈ splitSentences t,
      s.raw ≠ [] ∧ s.start < s.stop ∧ s.stop ≤ t.length ∧
        s.raw = jsSlice t s.start s.stop := by
  intro s hs
  obtain ⟨a, r, hmem, h1, h2, h3, h4⟩ := mkSentences_mem _ _ _ hs
  obtain ⟨k, hk, hne, hb, hsl⟩ := sentenceSpansGo_sound _ _ _ _ _ hmem
  have hk0 : a = k := by omega
  subst hk0
  refine ⟨by rw [h1]; exact hne, ?_, ?_, ?_⟩
  · rw [h3, h4]
    have : r.length ≠ 0 := fun hz => hne (List.eq_nil_of_length_eq_zero hz)
    omega
  · rw [h4]; omega
  · rw [h1, h3, h4]; exact hsl

/-- C9: for every input text and every sentence record produced by the
segmenter, `0 ≤ start < end ≤ length(text)` and the sentence's raw span
text equals `text.slice(start, end)`. -/
theorem c9_segmenter_span_invariant (t : Str) :
    ∀ s ∈ splitSentences t,
      0 ≤ s.start ∧ s.start < s.stop ∧ s.stop ≤ t.length ∧
        s.raw = jsSlice t s.start s.stop := by
  intro s hs
  obtain ⟨_, h2, h3, h4⟩ := splitSentences_sound t s hs
  exact ⟨Nat.zero_le _, h2, h3, h4⟩

/-- Witness for C9 at the concrete document `"Hi there. Bye."` and its
second sentence (whose raw span `" Bye."` includes the separating
space). -/
theorem c9_segmenter_span_invariant_witness :
    ({ index := 1, raw := (" Bye.").toList, text := ("Bye.").toList,
       start := 9, stop := 14, wordCount := 1, opener := ("bye").toList,
       firstWord := ("bye").toList } : Sentence)
        ∈ splitSentences (("Hi there. Bye.").toList) ∧
      (0 ≤ 9 ∧ 9 < 14 ∧ 14 ≤ (("Hi there. Bye.").toList).length ∧
        (" Bye.").toList = jsSlice (("Hi there. Bye.").toList) 9 14) := by
  refine ⟨by decide, ?_⟩
  exact c9_segmenter_span_invariant (("Hi there. Bye.").toList)
    { index := 1, raw := (" Bye.").toList, text := ("Bye.").toList,
      start := 9, stop := 14, wordCount := 1, opener := ("bye").toList,
      firstWord := ("bye").toList } (by decide)

/-! Section: Suggestion provenance. -/

lemma pushSuggestion_mem {acc : List Suggestion} {c : Cand} {x : Suggestion}
    (h : x ∈ pushSuggestion acc c) :
    x ∈ acc ∨ (x.type = c.type ∧ x.start = c.start ∧ x.stop = c.stop ∧
      x.original = c.original ∧ x.replacement = c.replacement ∧
      x.status = SuggStatus.pending) := by
  rw [pushSuggestion] at h
  split at h
  · exact Or.inl h
  · rcases List.mem_append.1 h with hh | hh
    · exact Or.inl hh
    · simp at hh
      subst hh
      exact Or.inr ⟨rfl, rfl, rfl, rfl, rfl, rfl⟩

lemma foldl_push_mem {α : Type} {P : Suggestion → Prop}
    {step : List Suggestion → α → List Suggestion} :
    ∀ (l : List α),
      (∀ acc y, y ∈ l → ∀ x, x ∈ step acc y → x ∈ acc ∨ P x) →
      ∀ (acc : List Suggestion) (x : Suggestion),
        x ∈ l.foldl step acc → x ∈ acc ∨ P x := by
  intro l
  induction l with
  | nil => intro _ acc x h; exact Or.inl h
  | cons y ys ih =>
    intro hstep acc x h
    rw [List.foldl_cons] at h
    rcases ih (fun a z hz => hstep a z (List.mem_cons_of_mem _ hz))
        (step acc y) x h with hh | hh
    · exact hstep acc y (List.mem_cons_self _ _) x hh
    · exact Or.inr hh

lemma varySentenceLength_mem {sentences : List Sentence}
    {acc : List Suggestion} {x : Suggestion}
    (h : x ∈ varySentenceLength sentences acc) :
    x ∈ acc ∨ ∃ s ∈ sentences, x.type = varyTag ∧ x.start = s.start ∧
      x.stop = s.stop ∧ x.original = s.raw := by
  refine foldl_push_mem (P := fun x => ∃ s ∈ sentences, x.type = varyTag ∧
    x.start = s.start ∧ x.stop = s.stop ∧ x.original = s.raw) _ ?_ _ _ h
  intro acc2 i _ x2 hx
  dsimp only at hx
  split at hx
  · rename_i a b c rest heq
    split at hx
    · split at hx
      · split at hx
        · rcases pushSuggestion_mem hx with hh | hh
          · exact Or.inl hh
          · right
            refine ⟨b, ?_, hh.1, hh.2.1, hh.2.2.1, hh.2.2.2.1⟩
            have hmem : b ∈ sentences.drop i := by rw [heq]; simp
            exact List.mem_of_mem_drop hmem
        · exact Or.inl hx
      · exact Or.inl hx
    · exact Or.inl hx
  · exact Or.inl hx

lemma phraseScanGo_sound :
    ∀ (fuel : Nat) (p : Str) (w : Bool) (rem : Str) (i0 a : Nat) (m : Str),
      (a, m) ∈ phraseScanGo fuel p w rem i0 →
      ∃ k, a = i0 + k ∧ k + p.length ≤ rem.length ∧
        m = (rem.drop k).take p.length := by
  intro fuel
  induction fuel with
  | zero => intro p w rem i0 a m h; simp [phraseScanGo] at h
  | succ fuel ih =>
    intro p w rem i0 a m h
    rw [phraseScanGo.eq_def] at h
    simp only at h
    split at h
    · simp at h
    · rename_i hfit
      split at h
      · rcases List.mem_cons.1 h with hh | hh
        · simp at hh
          obtain ⟨rfl, rfl⟩ := hh
          exact ⟨0, by omega, by simp at hfit ⊢; omega, by simp⟩
        · obtain ⟨k, hk, hb, hm⟩ := ih _ _ _ _ _ _ hh
          refine ⟨p.length + k, by omega, ?_, ?_⟩
          · simp at hb hfit
            omega
          · rw [hm, List.drop_drop]
      · cases rem with
        | nil => simp at h
        | cons c rest =>
          obtain ⟨k, hk, hb, hm⟩ := ih _ _ _ _ _ _ h
          refine ⟨k + 1, by omega, by simp; omega, ?_⟩
          rw [hm]
          rfl

lemma swapGo_mem {pr : Str × Str} :
    ∀ (ms : List (Nat × Str)) (acc : List Suggestion) (x : Suggestion),
      x ∈ swapGo pr ms acc →
      x ∈ acc ∨ (x.type = swapTag ∧ ∃ i m, (i, m) ∈ ms ∧ x.start = i ∧
        x.stop = i + m.length ∧ x.original = m) := by
  intro ms
  induction ms with
  | nil => intro acc x h; exact Or.inl h
  | cons im rest ih =>
    intro acc x h
    obtain ⟨i, m⟩ := im
    simp only [swapGo] at h
    split at h
    · split at h
      · rcases pushSuggestion_mem h with hh | hh
        · exact Or.inl hh
        · exact Or.inr ⟨hh.1, i, m, by simp, hh.2.1, hh.2.2.1, hh.2.2.2.1⟩
      · rcases ih _ _ h with hh | hh
        · rcases pushSuggestion_mem hh with hh2 | hh2
          · exact Or.inl hh2
          · exact Or.inr ⟨hh2.1, i, m, by simp, hh2.2.1, hh2.2.2.1, hh2.2.2.2.1⟩
        · obtain ⟨ht, i2, m2, hmem, h1, h2, h3⟩ := hh
          exact Or.inr ⟨ht, i2, m2, List.mem_cons_of_mem _ hmem, h1, h2, h3⟩
    · split at h
      · rcases pushSuggestion_mem h with hh | hh
        · exact Or.inl hh
        · exact Or.inr ⟨hh.1, i, m, by simp, hh.2.1, hh.2.2.1, hh.2.2.2.1⟩
      · rcases ih _ _ h with hh | hh
        · rcases pushSuggestion_mem hh with hh2 | hh2
          · exact Or.inl hh2
          · exact Or.inr ⟨hh2.1, i, m, by simp, hh2.2.1, hh2.2.2.1, hh2.2.2.2.1⟩
        · obtain ⟨ht, i2, m2, hmem, h1, h2, h3⟩ := hh
          exact Or.inr ⟨ht, i2, m2, List.mem_cons_of_mem _ hmem, h1, h2, h3⟩

lemma swapPredictablePhrasing_mem {text : Str} {acc : List Suggestion}
    {x : Suggestion} (h : x ∈ swapPredictablePhrasing text acc) :
    x ∈ acc ∨ (x.type = swapTag ∧ x.stop ≤ text.length ∧
      jsSlice text x.start x.stop = x.original) := by
  refine foldl_push_mem (P := fun x => x.type = swapTag ∧ x.stop ≤ text.length ∧
    jsSlice text x.start x.stop = x.original) _ ?_ _ _ h
  intro acc2 pr _ x2 hx
  rcases swapGo_mem _ _ _ hx with hh | hh
  · exact Or.inl hh
  · right
    obtain ⟨ht, i, m, hmem, h1, h2, h3⟩ := hh
    obtain ⟨k, hk, hb, hm⟩ := phraseScanGo_sound _ _ _ _ _ _ _ hmem
    have hk0 : i = k := by omega
    subst hk0
    have hml : m.length = pr.1.length := by
      rw [hm]
      simp
      omega
    have hslice : jsSlice text i (i + pr.1.length) = m := by
      rw [hm, jsSlice]
      rw [List.drop_take]
      congr 1
      omega
    refine ⟨ht, by omega, ?_⟩
    rw [h1, h2, h3, hml]
    exact hslice

lemma addStylisticTexture_mem {text : Str} {sentences : List Sentence}
    {styleProfile : Option StyleProfile} {acc : List Suggestion} {x : Suggestion}
    (h : x ∈ addStylisticTexture text sentences styleProfile acc) :
    x ∈ acc ∨ ∃ s ∈ sentences, x.type = textureTag ∧ x.start = s.start ∧
      x.stop = s.stop ∧ x.original = s.raw := by
  simp only [addStylisticTexture] at h
  split at h
  · split at h
    · rename_i tg heq
      rcases pushSuggestion_mem h with hh | hh
      · exact Or.inl hh
      · exact Or.inr ⟨tg, List.mem_of_find?_eq_some heq,
          hh.1, hh.2.1, hh.2.2.1, hh.2.2.2.1⟩
    · exact Or.inl h
  · exact Or.inl h

lemma diversifyOpeners_mem {sentences : List Sentence}
    {acc : List Suggestion} {x : Suggestion}
    (h : x ∈ diversifyOpeners sentences acc) :
    x ∈ acc ∨ ∃ s ∈ sentences, x.type = openersTag ∧ x.start = s.start ∧
      x.stop = s.stop ∧ x.original = s.raw := by
  refine foldl_push_mem (P := fun x => ∃ s ∈ sentences, x.type = openersTag ∧
    x.start = s.start ∧ x.stop = s.stop ∧ x.original = s.raw) _ ?_ _ _ h
  intro acc2 w _ x2 hx
  simp only at hx
  refine foldl_push_mem (P := fun x => ∃ s ∈ sentences, x.type = openersTag ∧
    x.start = s.start ∧ x.stop = s.stop ∧ x.original = s.raw) _ ?_ _ _ hx
  intro acc3 s hs x3 hx2
  rcases pushSuggestion_mem hx2 with hh | hh
  · exact Or.inl hh
  · right
    have h1 : s ∈ sentences := by
      have h2 := List.mem_of_mem_take hs
      have h3 := List.mem_of_mem_drop h2
      exact (List.mem_filter.1 h3).1
    exact ⟨s, h1, hh.1, hh.2.1, hh.2.2.1, hh.2.2.2.1⟩

lemma reduceHedging_mem {hd : ℚ} {sentences : List Sentence}
    {acc : List Suggestion} {x : Suggestion}
    (h : x ∈ reduceHedging hd sentences acc) :
    x ∈ acc ∨ ∃ s ∈ sentences, x.type = hedgeTag ∧ x.start = s.start ∧
      x.stop = s.stop ∧ x.original = s.raw := by
  rw [reduceHedging] at h
  split at h
  · refine foldl_push_mem (P := fun x => ∃ s ∈ sentences, x.type = hedgeTag ∧
      x.start = s.start ∧ x.stop = s.stop ∧ x.original = s.raw) _ ?_ _ _ h
    intro acc2 s hs x2 hx
    dsimp only at hx
    split at hx
    · exact Or.inl hx
    · split at hx
      · rcases pushSuggestion_mem hx with hh | hh
        · exact Or.inl hh
        · exact Or.inr ⟨s, hs, hh.1, hh.2.1, hh.2.2.1, hh.2.2.2.1⟩
      · exact Or.inl hx
  · exact Or.inl h

lemma styleRhythm_mem {sentences : List Sentence} {m sd : ℝ}
    {styleProfile : Option StyleProfile} {acc : List Suggestion} {x : Suggestion}
    (h : x ∈ styleRhythm sentences m sd styleProfile acc) :
    x ∈ acc ∨ ∃ s ∈ sentences, x.type = varyTag ∧ x.start = s.start ∧
      x.stop = s.stop ∧ x.original = s.raw := by
  rw [styleRhythm.eq_def] at h
  split at h
  · exact Or.inl h
  · split at h
    · split at h
      · rename_i ls heq
        split at h
        · rcases pushSuggestion_mem h with hh | hh
          · exact Or.inl hh
          · exact Or.inr ⟨ls, List.mem_of_find?_eq_some heq,
              hh.1, hh.2.1, hh.2.2.1, hh.2.2.2.1⟩
        · exact Or.inl h
      · exact Or.inl h
    · exact Or.inl h

/-- Every suggestion built by `buildSuggestions` either comes from the
phrase detector — in which case its span slices the document to its
`original` — or is a sentence-level suggestion carrying some segmenter
sentence's exact `start`/`end`/`raw`. -/
lemma buildSuggestions_mem {text : Str} {sentences : List Sentence}
    {m sd : ℝ} {hd : ℚ} {styleProfile : Option StyleProfile} {x : Suggestion}
    (h : x ∈ buildSuggestions text sentences m sd hd styleProfile) :
    (x.type = swapTag ∧ x.stop ≤ text.length ∧
      jsSlice text x.start x.stop = x.original) ∨
    (∃ s ∈ sentences, x.start = s.start ∧ x.stop = s.stop ∧
      x.original = s.raw ∧ x.type ≠ swapTag) := by
  rw [buildSuggestions] at h
  have h6 := List.mem_of_mem_take h
  rcases styleRhythm_mem h6 with h5 | hprov
  · rcases reduceHedging_mem h5 with h4 | hprov
    · rcases diversifyOpeners_mem h4 with h3 | hprov
      · rcases addStylisticTexture_mem h3 with h2 | hprov
        · rcases swapPredictablePhrasing_mem h2 with h1 | hswap
          · rcases varySentenceLength_mem h1 with h0 | hprov
            · simp at h0
            · obtain ⟨s, hs, ht, h1, h2, h3⟩ := hprov
              exact Or.inr ⟨s, hs, h1, h2, h3, by rw [ht]; decide⟩
          · exact Or.inl hswap
        · obtain ⟨s, hs, ht, h1, h2, h3⟩ := hprov
          exact Or.inr ⟨s, hs, h1, h2, h3, by rw [ht]; decide⟩
      · obtain ⟨s, hs, ht, h1, h2, h3⟩ := hprov
        exact Or.inr ⟨s, hs, h1, h2, h3, by rw [ht]; decide⟩
    · obtain ⟨s, hs, ht, h1, h2, h3⟩ := hprov
      exact Or.inr ⟨s, hs, h1, h2, h3, by rw [ht]; decide⟩
  · obtain ⟨s, hs, ht, h1, h2, h3⟩ := hprov
    exact Or.inr ⟨s, hs, h1, h2, h3, by rw [ht]; decide⟩

/-! Section: C1. -/

/-- C1, corrected: every suggestion's `(start, end)` are character
offsets into the **trimmed** input `text.trim()` — the string
`analyzeText` actually scans — and slicing the trimmed input from
`start` to `end` yields the suggestion's recorded `original`. -/
theorem c1_spans_slice_trimmed_input :
    ∀ (text styleSample : Str) (x : Suggestion),
      x ∈ (analyzeText text styleSample).suggestions →
      jsSlice (jsTrim text) x.start x.stop = x.original := by
  intro text styleSample x h
  rw [analyzeText] at h
  simp only at h
  split at h
  · simp at h
  · simp only at h
    rcases buildSuggestions_mem h with hh | hh
    · exact hh.2.2
    · obtain ⟨s, hs, h1, h2, h3, _⟩ := hh
      obtain ⟨_, _, _, hraw⟩ := splitSentences_sound (jsTrim text) s hs
      rw [h1, h2, h3]
      exact hraw.symm

set_option maxRecDepth 200000 in
/-- Witness for the corrected C1 at `c1doc`: the single suggestion the
analysis returns (the `Furthermore` swap). -/
theorem c1_spans_slice_trimmed_input_witness :
    ({ id := ("s-1").toList, type := swapTag,
       title := ("Use less templated phrasing").toList,
       description := ("This phrase is common in generated text. A small wording swap can feel more personal.").toList,
       start := 0, stop := 11, original := ("Furthermore").toList,
       replacement := ("Also").toList, riskImpact := 6,
       status := SuggStatus.pending } : Suggestion)
        ∈ (analyzeText c1doc []).suggestions ∧
      jsSlice (jsTrim c1doc) 0 11 = ("Furthermore").toList := by
  constructor
  · decide
  · exact c1_spans_slice_trimmed_input c1doc []
      { id := ("s-1").toList, type := swapTag,
        title := ("Use less templated phrasing").toList,
        description := ("This phrase is common in generated text. A small wording swap can feel more personal.").toList,
        start := 0, stop := 11, original := ("Furthermore").toList,
        replacement := ("Also").toList, riskImpact := 6,
        status := SuggStatus.pending } (by decide)

set_option maxRecDepth 200000 in
/-- Counterexample to C1 as stated: for the call `analyzeText c1doc`
(whose input carries one leading space) the returned suggestion has
span `(0, 11)` and original `"Furthermore"`, but slicing the **exact
input string of the call** at `(0, 11)` gives `" Furthermor"`, not the
recorded original — the offsets address `text.trim()`, not `text`. -/
theorem c1_exact_input_slice_counterexample :
    ((analyzeText c1doc []).suggestions.map
        (fun c => (c.start, c.stop, c.original))
      = [(0, 11, ("Furthermore").toList)]) ∧
    jsSlice c1doc 0 11 ≠ ("Furthermore").toList := by
  exact ⟨by rfl, by decide⟩

/-! Section: C10. -/

set_option maxRecDepth 200000 in
/-- C10: (general part) every sentence-level suggestion — any type other
than `swap-predictable-phrasing` — records exactly some segmenter
sentence's raw untrimmed span as its `(start, end, original)`.
(Concrete part) at `c10doc` the one suggestion produced is the
stylistic-texture rewrite of sentence 2: its `original` is the raw span
`" The numbers …"` with the separating space, its `replacement` is built
from the trimmed sentence text, and accepting it splices the
replacement directly after the first sentence's terminator, deleting
the separating space. -/
theorem c10_sentence_suggestions_cover_raw_spans :
    (∀ (text styleSample : Str) (x : Suggestion),
        x ∈ (analyzeText text styleSample).suggestions → x.type ≠ swapTag →
        ∃ s ∈ splitSentences (jsTrim text),
          x.start = s.start ∧ x.stop = s.stop ∧ x.original = s.raw) ∧
    ((analyzeText c10doc []).suggestions.map
        (fun c => (c.type, c.start, c.stop, c.original, c.replacement))
      = [(textureTag, 49, 128,
          (" The numbers gave everyone on the team a clear view of the final outcome today.").toList,
          ("The numbers gave everyone on the (for context), team a clear view of the final outcome today.").toList)]) ∧
    (applySuggestion c10doc (analyzeText c10doc []).suggestions
        (("s-1").toList)).text
      = ("The results show the value of the work done here.The numbers gave everyone on the (for context), team a clear view of the final outcome today.").toList := by
  refine ⟨?_, by rfl, by rfl⟩
  intro text styleSample x h htype
  rw [analyzeText] at h
  simp only at h
  split at h
  · simp at h
  · simp only at h
    rcases buildSuggestions_mem h with hh | hh
    · exact absurd hh.1 htype
    · obtain ⟨s, hs, h1, h2, h3, _⟩ := hh
      exact ⟨s, hs, h1, h2, h3⟩

set_option maxRecDepth 200000 in
/-- Witness for C10's general part at `c10doc` and its texture
suggestion. -/
theorem c10_sentence_suggestions_cover_raw_spans_witness :
    ∃ s ∈ splitSentences (jsTrim c10doc),
      (49 : Nat) = s.start ∧ (128 : Nat) = s.stop ∧
      (" The numbers gave everyone on the team a clear view of the final outcome today.").toList = s.raw := by
  exact c10_sentence_suggestions_cover_raw_spans.1 c10doc []
    { id := ("s-1").toList, type := textureTag,
      title := ("Add a small human-style aside").toList,
      description := ("A brief parenthetical can make polished writing feel more naturally human.").toList,
      start := 49, stop := 128,
      original := (" The numbers gave everyone on the team a clear view of the final outcome today.").toList,
      replacement := ("The numbers gave everyone on the (for context), team a clear view of the final outcome today.").toList,
      riskImpact := 5, status := SuggStatus.pending }
    (by decide) (by decide)

/-! Section: Client accept operation: C2 and C3. -/

lemma jsIndexOfGo_sound :
    ∀ (fuel : Nat) (t p : Str) (i0 i : Nat),
      jsIndexOfGo t p fuel i0 = some i →
      i0 ≤ i ∧ p.isPrefixOf (t.drop i) ∧
        ∀ k, i0 ≤ k → k < i → ¬ p.isPrefixOf (t.drop k) := by
  intro fuel
  induction fuel with
  | zero => intro t p i0 i h; simp [jsIndexOfGo] at h
  | succ fuel ih =>
    intro t p i0 i h
    rw [jsIndexOfGo] at h
    split at h
    · rename_i hpre
      injection h with h
      subst h
      exact ⟨Nat.le_refl _, hpre, fun k hk1 hk2 => absurd (Nat.lt_of_le_of_lt hk1 hk2)
        (Nat.lt_irrefl _)⟩
    · rename_i hpre
      obtain ⟨h1, h2, h3⟩ := ih t p (i0 + 1) i h
      refine ⟨by omega, h2, ?_⟩
      intro k hk1 hk2
      by_cases hk : k = i0
      · subst hk
        simpa using hpre
      · exact h3 k (by omega) hk2

/-- Minimality of `jsIndexOf`: the pattern occurs at the returned index
and at no smaller index, so it really is the first occurrence. -/
lemma jsIndexOf_sound {t p : Str} {i : Nat} (h : jsIndexOf t p = some i) :
    p.isPrefixOf (t.drop i) ∧ ∀ k < i, ¬ p.isPrefixOf (t.drop k) := by
  obtain ⟨_, h2, h3⟩ := jsIndexOfGo_sound _ _ _ _ _ h
  exact ⟨h2, fun k hk => h3 k (Nat.zero_le _) hk⟩

/-- C2: accepting a suggestion whose replacement is longer than the
located original span by `n > 0` characters shifts every other
suggestion whose `start` is at or after the located span's end by
exactly `n` (both `start` and `end`, all other fields unchanged), and
leaves every other suggestion whose span ends before that point
untouched.  (Well-formed spans `start < end` — the creation invariant —
are assumed for the list.) -/
theorem c2_accept_shifts_by_replacement_delta :
    ∀ (text : Str) (suggestions : List Suggestion) (targetId : Str)
      (target : Suggestion) (s e : Nat) (orig : Str) (n : Nat),
      suggestions.find? (fun s2 => s2.id == targetId) = some target →
      target.status = SuggStatus.pending →
      locateSpan text target = some (s, e, orig) →
      target.replacement.length = orig.length + n →
      0 < n →
      (∀ item ∈ suggestions, item.start < item.stop) →
      (applySuggestion text suggestions targetId).staleError = false ∧
      (applySuggestion text suggestions targetId).suggestions.length
        = suggestions.length ∧
      (∀ (i : Nat) (item : Suggestion), suggestions[i]? = some item →
        item.id ≠ targetId →
        (e ≤ item.start →
          (applySuggestion text suggestions targetId).suggestions[i]?
            = some { item with start := item.start + n, stop := item.stop + n }) ∧
        (item.stop < e →
          (applySuggestion text suggestions targetId).suggestions[i]?
            = some item)) := by
  intro text suggestions targetId target s e orig n hfind hst hloc hlen hn hwf
  have happ : applySuggestion text suggestions targetId =
      ⟨jsSlice text 0 s ++ target.replacement ++ text.drop e,
       suggestions.map (fun item =>
         if item.id = targetId then
           { item with
               status := SuggStatus.accepted
               start := s
               stop := s + target.replacement.length }
         else if e ≤ item.start then
           { item with
               start := item.start + target.replacement.length - orig.length
               stop := item.stop + target.replacement.length - orig.length }
         else item),
       false⟩ := by
    rw [applySuggestion, hfind]
    simp only [hst, ne_eq, not_true_eq_false, if_false, hloc]
  rw [happ]
  refine ⟨rfl, by simp, ?_⟩
  intro i item hget hid
  have hmem : item ∈ suggestions := by
    rcases List.getElem?_eq_some_iff.1 hget with ⟨hlt, hgetl⟩
    exact hgetl ▸ List.getElem_mem hlt
  constructor
  · intro hge
    simp only [List.getElem?_map, hget, Option.map_some']
    have h1 : item.start + target.replacement.length - orig.length
        = item.start + n := by omega
    have h2 : item.stop + target.replacement.length - orig.length
        = item.stop + n := by omega
    rw [if_neg hid, if_pos hge, h1, h2]
  · intro hlt
    have hwfi := hwf item hmem
    simp only [List.getElem?_map, hget, Option.map_some']
    rw [if_neg hid, if_neg (by omega)]

/-- Witness for C2: accepting `s-1` (replacement one character longer
than its span) shifts the later suggestion by exactly 1 and leaves the
earlier one untouched. -/
theorem c2_accept_shifts_by_replacement_delta_witness :
    (applySuggestion c2text [c2target, c2later, c2earlier]
        (("s-1").toList)).staleError = false ∧
    (applySuggestion c2text [c2target, c2later, c2earlier]
        (("s-1").toList)).suggestions[1]?
      = some { c2later with start := 4, stop := 6 } ∧
    (applySuggestion c2text [c2target, c2later, c2earlier]
        (("s-1").toList)).suggestions[2]? = some c2earlier := by
  have h := c2_accept_shifts_by_replacement_delta c2text
    [c2target, c2later, c2earlier] (("s-1").toList) c2target 0 2
    (("ab").toList) 1 (by decide) (by decide) (by decide) (by decide)
    (by decide) (by decide)
  obtain ⟨h1, _, h3⟩ := h
  refine ⟨h1, ?_, ?_⟩
  · exact (h3 1 c2later (by decide) (by decide)).1 (by decide)
  · exact (h3 2 c2earlier (by decide) (by decide)).2 (by decide)

/-- C3: accepting a pending suggestion locates its recorded `original`
first at the recorded span; failing that, at the first literal
occurrence of `original` in the current document; failing that, at the
first literal occurrence of `original.trim()`; and when all three fail
it reports the stale-suggestion error and leaves the document and every
suggestion unchanged. -/
theorem c3_accept_location_fallbacks_and_stale :
    ∀ (text : Str) (suggestions : List Suggestion) (targetId : Str)
      (target : Suggestion),
      suggestions.find? (fun s2 => s2.id == targetId) = some target →
      target.status = SuggStatus.pending →
      ((jsSlice text target.start target.stop = target.original →
        (applySuggestion text suggestions targetId).staleError = false ∧
        (applySuggestion text suggestions targetId).text
          = jsSlice text 0 target.start ++ target.replacement ++
            text.drop target.stop) ∧
      (∀ i : Nat, jsSlice text target.start target.stop ≠ target.original →
        jsIndexOf text target.original = some i →
        target.original.isPrefixOf (text.drop i) ∧
        (∀ k < i, ¬ target.original.isPrefixOf (text.drop k)) ∧
        (applySuggestion text suggestions targetId).staleError = false ∧
        (applySuggestion text suggestions targetId).text
          = jsSlice text 0 i ++ target.replacement ++
            text.drop (i + target.original.length)) ∧
      (∀ j : Nat, jsSlice text target.start target.stop ≠ target.original →
        jsIndexOf text target.original = none →
        jsTrim target.original ≠ [] →
        jsIndexOf text (jsTrim target.original) = some j →
        (jsTrim target.original).isPrefixOf (text.drop j) ∧
        (∀ k < j, ¬ (jsTrim target.original).isPrefixOf (text.drop k)) ∧
        (applySuggestion text suggestions targetId).staleError = false ∧
        (applySuggestion text suggestions targetId).text
          = jsSlice text 0 j ++ target.replacement ++
            text.drop (j + (jsTrim target.original).length)) ∧
      (jsSlice text target.start target.stop ≠ target.original →
        jsIndexOf text target.original = none →
        (jsTrim target.original = [] ∨
          jsIndexOf text (jsTrim target.original) = none) →
        (applySuggestion text suggestions targetId).staleError = true ∧
        (applySuggestion text suggestions targetId).text = text ∧
        (applySuggestion text suggestions targetId).suggestions
          = suggestions)) := by
  intro text suggestions targetId target hfind hst
  refine ⟨?_, ?_, ?_, ?_⟩
  · intro hs1
    have hloc : locateSpan text target
        = some (target.start, target.stop, target.original) := by
      rw [locateSpan]
      simp only [hs1, if_pos]
    rw [applySuggestion, hfind]
    simp only [hst, ne_eq, not_true_eq_false, if_false, hloc]
    exact ⟨by simp, by simp⟩
  · intro i hs1 hidx
    obtain ⟨hpre, hmin⟩ := jsIndexOf_sound hidx
    have hloc : locateSpan text target
        = some (i, i + target.original.length, target.original) := by
      rw [locateSpan]
      simp only [if_neg hs1, hidx]
    rw [applySuggestion, hfind]
    simp only [hst, ne_eq, not_true_eq_false, if_false, hloc]
    exact ⟨hpre, hmin, by simp, by simp⟩
  · intro j hs1 hidx hcne hidx2
    obtain ⟨hpre, hmin⟩ := jsIndexOf_sound hidx2
    have hloc : locateSpan text target
        = some (j, j + (jsTrim target.original).length, jsTrim target.original) := by
      rw [locateSpan]
      simp only [if_neg hs1, hidx, if_neg hcne, hidx2]
    rw [applySuggestion, hfind]
    simp only [hst, ne_eq, not_true_eq_false, if_false, hloc]
    exact ⟨hpre, hmin, by simp, by simp⟩
  · intro hs1 hidx hfail
    have hloc : locateSpan text target = none := by
      rw [locateSpan]
      simp only [if_neg hs1, hidx]
      by_cases hc : jsTrim target.original = []
      · rw [if_pos hc]
      · rcases hfail with hc2 | hidx2
        · exact absurd hc2 hc
        · rw [if_neg hc, hidx2]
    rw [applySuggestion, hfind]
    simp only [hst, ne_eq, not_true_eq_false, if_false, hloc]
    exact ⟨by simp, by simp, by simp⟩

/-- Witness for C3 at a concrete stale case: the recorded span does not
match, and neither `original` nor its trim occurs in the document, so
the accept is a no-op with the stale error set. -/
theorem c3_accept_location_fallbacks_and_stale_witness :
    (applySuggestion (("hello world").toList)
        [{ id := ("s-1").toList, type := swapTag, title := [], description := []
           start := 0, stop := 2, original := (" zz ").toList
           replacement := ("y").toList, riskImpact := 1,
           status := SuggStatus.pending }] (("s-1").toList)).staleError = true ∧
    (applySuggestion (("hello world").toList)
        [{ id := ("s-1").toList, type := swapTag, title := [], description := []
           start := 0, stop := 2, original := (" zz ").toList
           replacement := ("y").toList, riskImpact := 1,
           status := SuggStatus.pending }] (("s-1").toList)).text
      = ("hello world").toList := by
  have h := (c3_accept_location_fallbacks_and_stale (("hello world").toList)
    [{ id := ("s-1").toList, type := swapTag, title := [], description := []
       start := 0, stop := 2, original := (" zz ").toList
       replacement := ("y").toList, riskImpact := 1,
       status := SuggStatus.pending }] (("s-1").toList)
    { id := ("s-1").toList, type := swapTag, title := [], description := []
      start := 0, stop := 2, original := (" zz ").toList
      replacement := ("y").toList, riskImpact := 1,
      status := SuggStatus.pending } (by decide) (by decide)).2.2.2
    (by decide) (by decide) (Or.inr (by decide))
  exact ⟨h.1, h.2.1⟩

/-! Section: C4 and C5. -/

/-- C4: below the minimum-input floor — fewer than 20 tokenized words or
fewer than 2 sentences — the analysis returns metrics exactly
`{50, 50, 50, 50, 50}`, every band `moderate`, and no suggestions. -/
theorem c4_minimum_input_neutral_default :
    ∀ (text styleSample : Str),
      (tokenizeWords (jsTrim text)).length < 20 ∨
        (splitSentences (jsTrim text)).length < 2 →
      (analyzeText text styleSample).metrics = ⟨50, 50, 50, 50, 50⟩ ∧
      (analyzeText text styleSample).riskBands
        = ⟨RiskBand.moderate, RiskBand.moderate, RiskBand.moderate,
           RiskBand.moderate, RiskBand.moderate⟩ ∧
      (analyzeText text styleSample).suggestions = [] := by
  intro text styleSample h
  rw [analyzeText]
  simp only
  rw [if_pos (Or.inr h)]
  exact ⟨rfl, rfl, rfl⟩

/-- Witness for C4 at a two-word document. -/
theorem c4_minimum_input_neutral_default_witness :
    (analyzeText (("Too short.").toList) []).metrics = ⟨50, 50, 50, 50, 50⟩ ∧
    (analyzeText (("Too short.").toList) []).riskBands
      = ⟨RiskBand.moderate, RiskBand.moderate, RiskBand.moderate,
         RiskBand.moderate, RiskBand.moderate⟩ ∧
    (analyzeText (("Too short.").toList) []).suggestions = [] :=
  c4_minimum_input_neutral_default (("Too short.").toList) [] (by decide)

lemma jsClamp_bounds (x : ℝ) : 0 ≤ jsClamp x ∧ jsClamp x ≤ 100 := by
  constructor
  · exact le_max_left 0 _
  · exact max_le (by norm_num) (min_le_left _ _)

lemma round_nonneg_of {x : ℝ} (h : 0 ≤ x) : 0 ≤ round x := by
  rw [round_eq]
  refine Int.le_floor.2 ?_
  push_cast
  linarith

lemma round_le_100_of {x : ℝ} (h : x ≤ 100) : round x ≤ 100 := by
  rw [round_eq]
  have hlt : ⌊x + 1 / 2⌋ < 101 := Int.floor_lt.2 (by push_cast; linarith)
  omega

lemma bandMatches_round_color {x : ℝ} (h0 : 0 ≤ x) (h100 : x ≤ 100) :
    bandMatches x (round x) (getRiskColor x) := by
  refine ⟨rfl, round_nonneg_of h0, round_le_100_of h100, ?_, ?_, ?_⟩
  · intro h; rw [getRiskColor, if_pos h]
  · intro h1 h2; rw [getRiskColor, if_neg (by linarith), if_pos h2]
  · intro h; rw [getRiskColor, if_neg (by linarith), if_neg (by linarith)]

lemma perplexityRisk_bounds (words : List Str) :
    0 ≤ perplexityRisk words ∧ perplexityRisk words ≤ 100 := by
  rw [perplexityRisk]
  exact jsClamp_bounds _

lemma burstinessRisk_bounds (sentences : List Sentence)
    (styleProfile : Option StyleProfile) :
    0 ≤ burstinessRisk sentences styleProfile ∧
      burstinessRisk sentences styleProfile ≤ 100 := by
  rw [burstinessRisk.eq_def]
  simp only
  split
  · split
    · exact jsClamp_bounds _
    · exact jsClamp_bounds _
  · exact jsClamp_bounds _

lemma sentencePatternRisk_bounds (sentences : List Sentence) :
    0 ≤ sentencePatternRisk sentences ∧ sentencePatternRisk sentences ≤ 100 := by
  rw [sentencePatternRisk]
  exact jsClamp_bounds _

lemma vocabularyRisk_bounds (words : List Str) (hd : ℚ) :
    0 ≤ vocabularyRisk words hd ∧ vocabularyRisk words hd ≤ 100 := by
  rw [vocabularyRisk]
  exact jsClamp_bounds _

lemma overallScore_bounds (p b s v : ℝ) :
    0 ≤ overallScore p b s v ∧ overallScore p b s v ≤ 100 := by
  rw [overallScore]
  exact jsClamp_bounds _

/-- C5: for every input above the minimum-input floor, each of the five
returned metrics is `Math.round` of its pre-rounding score and lies in
`[0, 100]` (as an integer), and each band is `low`/`moderate`/`high`
according as the pre-rounding score is below 35, below 65, or at least
65. -/
theorem c5_metrics_in_range_bands_match_thresholds :
    ∀ (text styleSample : Str),
      jsTrim text ≠ [] →
      20 ≤ (tokenizeWords (jsTrim text)).length →
      2 ≤ (splitSentences (jsTrim text)).length →
      bandMatches (perplexityRisk (tokenizeWords (jsTrim text)))
        (analyzeText text styleSample).metrics.perplexity
        (analyzeText text styleSample).riskBands.perplexity ∧
      bandMatches (burstinessRisk (splitSentences (jsTrim text))
          (computeStyleProfile styleSample))
        (analyzeText text styleSample).metrics.burstiness
        (analyzeText text styleSample).riskBands.burstiness ∧
      bandMatches (sentencePatternRisk (splitSentences (jsTrim text)))
        (analyzeText text styleSample).metrics.sentencePatternDiversity
        (analyzeText text styleSample).riskBands.sentencePatternDiversity ∧
      bandMatches (vocabularyRisk (tokenizeWords (jsTrim text))
          (hedgeDensityOf (jsTrim text) (splitSentences (jsTrim text)).length))
        (analyzeText text styleSample).metrics.vocabularyPredictability
        (analyzeText text styleSample).riskBands.vocabularyPredictability ∧
      bandMatches (overallScore
          (perplexityRisk (tokenizeWords (jsTrim text)))
          (burstinessRisk (splitSentences (jsTrim text))
            (computeStyleProfile styleSample))
          (sentencePatternRisk (splitSentences (jsTrim text)))
          (vocabularyRisk (tokenizeWords (jsTrim text))
            (hedgeDensityOf (jsTrim text) (splitSentences (jsTrim text)).length)))
        (analyzeText text styleSample).metrics.overallRisk
        (analyzeText text styleSample).riskBands.overallRisk := by
  intro text styleSample h1 h2 h3
  have hguard : ¬(jsTrim text = [] ∨
      (tokenizeWords (jsTrim text)).length < 20 ∨
      (splitSentences (jsTrim text)).length < 2) := by
    push_neg
    exact ⟨h1, by omega, by omega⟩
  rw [analyzeText]
  simp only
  rw [if_neg hguard]
  simp only
  obtain ⟨p0, p1⟩ := perplexityRisk_bounds (tokenizeWords (jsTrim text))
  obtain ⟨b0, b1⟩ := burstinessRisk_bounds (splitSentences (jsTrim text))
    (computeStyleProfile styleSample)
  obtain ⟨s0, s1⟩ := sentencePatternRisk_bounds (splitSentences (jsTrim text))
  obtain ⟨v0, v1⟩ := vocabularyRisk_bounds (tokenizeWords (jsTrim text))
    (hedgeDensityOf (jsTrim text) (splitSentences (jsTrim text)).length)
  obtain ⟨o0, o1⟩ := overallScore_bounds (perplexityRisk (tokenizeWords (jsTrim text)))
    (burstinessRisk (splitSentences (jsTrim text)) (computeStyleProfile styleSample))
    (sentencePatternRisk (splitSentences (jsTrim text)))
    (vocabularyRisk (tokenizeWords (jsTrim text))
      (hedgeDensityOf (jsTrim text) (splitSentences (jsTrim text)).length))
  exact ⟨bandMatches_round_color p0 p1, bandMatches_round_color b0 b1,
    bandMatches_round_color s0 s1, bandMatches_round_color v0 v1,
    bandMatches_round_color o0 o1⟩

set_option maxRecDepth 200000 in
/-- Witness for C5 at `c5doc`. -/
theorem c5_metrics_in_range_bands_match_thresholds_witness :
    bandMatches (perplexityRisk (tokenizeWords (jsTrim c5doc)))
      (analyzeText c5doc []).metrics.perplexity
      (analyzeText c5doc []).riskBands.perplexity ∧
    bandMatches (burstinessRisk (splitSentences (jsTrim c5doc))
        (computeStyleProfile []))
      (analyzeText c5doc []).metrics.burstiness
      (analyzeText c5doc []).riskBands.burstiness ∧
    bandMatches (sentencePatternRisk (splitSentences (jsTrim c5doc)))
      (analyzeText c5doc []).metrics.sentencePatternDiversity
      (analyzeText c5doc []).riskBands.sentencePatternDiversity ∧
    bandMatches (vocabularyRisk (tokenizeWords (jsTrim c5doc))
        (hedgeDensityOf (jsTrim c5doc) (splitSentences (jsTrim c5doc)).length))
      (analyzeText c5doc []).metrics.vocabularyPredictability
      (analyzeText c5doc []).riskBands.vocabularyPredictability ∧
    bandMatches (overallScore
        (perplexityRisk (tokenizeWords (jsTrim c5doc)))
        (burstinessRisk (splitSentences (jsTrim c5doc)) (computeStyleProfile []))
        (sentencePatternRisk (splitSentences (jsTrim c5doc)))
        (vocabularyRisk (tokenizeWords (jsTrim c5doc))
          (hedgeDensityOf (jsTrim c5doc) (splitSentences (jsTrim c5doc)).length)))
      (analyzeText c5doc []).metrics.overallRisk
      (analyzeText c5doc []).riskBands.overallRisk :=
  c5_metrics_in_range_bands_match_thresholds c5doc [] (by decide) (by decide)
    (by decide)

/-! Section: C6, C7, C8. -/

/-- Counterexample to C6 as stated: the detector does flag
`"It is important to note that"` at offset 0, but the catalog maps this
phrase to `"worth noting:"` (capitalised to `"Worth noting:"`), not to
the capitalised form of `"note that"` — that replacement belongs to the
catalog entry `"it should be noted that"`. -/
theorem c6_phrase_replacement_counterexample :
    ((swapPredictablePhrasing c6doc []).map
        (fun c => (c.start, c.original, c.replacement))
      = [(0, ("It is important to note that").toList,
          ("Worth noting:").toList)]) ∧
    ("Worth noting:").toList ≠ capitalizeFirst (("note that").toList) := by
  exact ⟨by rfl, by decide⟩

/-- C6, corrected: applying the swap-predictable-phrasing detector to
`"It is important to note that this works."` yields exactly one
suggestion, spanning offsets 0–28 with original
`"It is important to note that"`, whose replacement is the
first-letter-capitalised form of the catalog replacement
`"worth noting:"`. -/
theorem c6_phrase_replacement_amended :
    (swapPredictablePhrasing c6doc []).map
        (fun c => (c.type, c.start, c.stop, c.original, c.replacement))
      = [(swapTag, 0, 28, ("It is important to note that").toList,
          capitalizeFirst (("worth noting:").toList))] := by
  rfl

/-- C7 failing-input evaluation: on `c7doc` the hedge-reduction detector
fires (density ≥ 0.5) and both sentences contain hedge matches, yet the
detector emits **no** suggestion, because its replacer callback never
removes a hedge: `HEDGE_REGEX` has a capture group, so the callback's
second parameter is the captured string rather than the numeric offset,
and the strict equality `offset === …indexOf(…)` compares a string with
a number — always false.  The cleaned text of a hedge-laden sentence is
therefore the sentence itself, and unchanged sentences are skipped. -/
theorem c7_hedge_removal_never_happens :
    mkRat 1 2 ≤ hedgeDensityOf (jsTrim c7doc)
      (splitSentences (jsTrim c7doc)).length ∧
    (∀ s ∈ splitSentences (jsTrim c7doc), hedgeMatches s.text ≠ []) ∧
    reduceHedging
      (hedgeDensityOf (jsTrim c7doc) (splitSentences (jsTrim c7doc)).length)
      (splitSentences (jsTrim c7doc)) [] = [] ∧
    hedgeCleaned (("It may be that we could go.").toList)
      = ("It may be that we could go.").toList := by
  refine ⟨by decide, by decide, by decide, by decide⟩

set_option maxRecDepth 1000000 in
set_option maxHeartbeats 2000000 in
/-- Counterexample to C8 as stated: scanning `c8doc`, the candidate list
reaches 40 entries while processing the phrase `overall`, yet the
detector still appends a 41st candidate (for the later catalog phrase
`it should be noted that`), because the source's `return` only exits
the current phrase's `forEach` callback. -/
theorem c8_cap_counterexample :
    (swapPredictablePhrasing c8doc []).length = 41 ∧
    ((swapPredictablePhrasing c8doc []).drop 40).map (fun c => c.original)
      = [("it should be noted that").toList] := by
  exact ⟨by rfl, by rfl⟩

lemma pushSuggestion_length_le (acc : List Suggestion) (c : Cand) :
    (pushSuggestion acc c).length ≤ acc.length + 1 := by
  rw [pushSuggestion]
  split
  · omega
  · simp

lemma swapGo_length_le (pr : Str × Str) :
    ∀ (ms : List (Nat × Str)) (acc : List Suggestion),
      (swapGo pr ms acc).length ≤ max acc.length 39 + 1 := by
  intro ms
  induction ms with
  | nil => intro acc; rw [swapGo]; omega
  | cons im rest ih =>
    intro acc
    obtain ⟨i, m⟩ := im
    have hpushA := pushSuggestion_length_le acc
      { type := swapTag
        title := ("Use less templated phrasing").toList
        description := ("This phrase is common in generated text. A small wording swap can feel more personal.").toList
        start := i, stop := i + m.length, original := m
        replacement := capitalizeFirst pr.2, riskImpact := 6 }
    have hpushB := pushSuggestion_length_le acc
      { type := swapTag
        title := ("Use less templated phrasing").toList
        description := ("This phrase is common in generated text. A small wording swap can feel more personal.").toList
        start := i, stop := i + m.length, original := m
        replacement := pr.2, riskImpact := 6 }
    simp only [swapGo]
    split
    · split
      · omega
      · rename_i hcap
        have := ih (pushSuggestion acc
          { type := swapTag
            title := ("Use less templated phrasing").toList
            description := ("This phrase is common in generated text. A small wording swap can feel more personal.").toList
            start := i, stop := i + m.length, original := m
            replacement := capitalizeFirst pr.2, riskImpact := 6 })
        omega
    · split
      · omega
      · rename_i hcap
        have := ih (pushSuggestion acc
          { type := swapTag
            title := ("Use less templated phrasing").toList
            description := ("This phrase is common in generated text. A small wording swap can feel more personal.").toList
            start := i, stop := i + m.length, original := m
            replacement := pr.2, riskImpact := 6 })
        omega

lemma swapFold_length_le (text : Str) :
    ∀ (ps : List (Str × Str)) (acc : List Suggestion),
      (ps.foldl (fun acc pr => swapGo pr (phraseMatches pr.1 text) acc)
        acc).length ≤ max acc.length 39 + ps.length := by
  intro ps
  induction ps with
  | nil => intro acc; simp
  | cons pr rest ih =>
    intro acc
    rw [List.foldl_cons]
    have h1 := ih (swapGo pr (phraseMatches pr.1 text) acc)
    have h2 := swapGo_length_le pr (phraseMatches pr.1 text) acc
    simp only [List.length_cons]
    omega

/-- C8, corrected: once the running candidate list reaches 40, the
detector stops scanning the *current* catalog phrase, but each later
phrase may still append one candidate (its first match) before the cap
check runs; consequently the detector's output is not capped at 40, but
it can never grow beyond `max(initial, 39)` plus one per catalog phrase
(10 phrases). -/
theorem c8_cap_amended :
    ∀ (text : Str) (acc : List Suggestion),
      (swapPredictablePhrasing text acc).length ≤ max acc.length 39 + 10 := by
  intro text acc
  have h := swapFold_length_le text PREDICTABLE_PHRASES acc
  have hlen : PREDICTABLE_PHRASES.length = 10 := by rfl
  rw [hlen] at h
  exact h
